import Mathlib

/-!
Shallow embedding of `fastcounter.py` (pocketgems/gae-fastcounters).

The program keeps a durable datastore counter (`Counter` entities keyed by
name), a volatile memcache slot per name holding an unsigned 64-bit value
offset by `BASE_VALUE`, a memcache throttle flag per name, and a task queue
of pending persistence jobs.  We model these four tiers as one explicit
state record.  Collaborator failures (memcache RPC failure, slot eviction,
task-queue failure) are resolved by an explicit oracle passed to `incr`;
an uncaught Python exception is modelled as `Except.error`.
-/

/-- `BASE_VALUE = 2 ** 63` from the source: memcache incr/decr work on
unsigned 64-bit integers and do not underflow, so the slot starts at the
midpoint to allow both positive and negative deltas. -/
def BASE_VALUE : Nat := 2 ^ 63

/-- Modulus of the unsigned 64-bit memcache counters (incr wraps at 2^64). -/
def UINT64_MOD : Nat := 2 ^ 64

/-- The program state: durable `Counter` records (`ds`, keyed by name),
memcache value slots (`mc`, the `ctr_val:`-prefixed keys), memcache throttle
flags (`lck`, the `ctr_lck:`-prefixed keys; TTL expiry is an external event
that clears the flag), and the queue of submitted-but-unexecuted persistence
jobs (`tasks`, each carrying name and delta; the random queue-name choice in
the source does not affect job contents). -/
structure St where
  ds : String → Option Int
  mc : String → Option Nat
  lck : String → Bool
  tasks : List (String × Int)

def setMc (s : St) (name : String) (v : Option Nat) : St :=
  { s with mc := fun n => if n = name then v else s.mc n }

def setLck (s : St) (name : String) (b : Bool) : St :=
  { s with lck := fun n => if n = name then b else s.lck n }

def setDs (s : St) (name : String) (v : Option Int) : St :=
  { s with ds := fun n => if n = name then v else s.ds n }

/-- The read formula exactly as claim C1 words it: durable value (0 if the
record is absent) plus (the cache slot's raw value if present, else
`BASE_VALUE`) minus `BASE_VALUE`.  Spec-side definition, for comparison with
`get_count` below. -/
def specGetCountRaw (s : St) (name : String) : Int :=
  (s.ds name).getD 0 +
    ((match s.mc name with
      | some v => (v : Int)
      | none => (BASE_VALUE : Int)) - (BASE_VALUE : Int))

/-- The read formula amended for the falsy-cache-value behaviour: durable
value (0 if the record is absent) plus (the cache slot's raw value if
present with a nonzero value, else `BASE_VALUE`) minus `BASE_VALUE`.
Spec-side definition, for comparison with `get_count` below. -/
def specGetCountAmended (s : St) (name : String) : Int :=
  (s.ds name).getD 0 +
    ((match s.mc name with
      | some v => if v = 0 then (BASE_VALUE : Int) else (v : Int)
      | none => (BASE_VALUE : Int)) - (BASE_VALUE : Int))

/-- Python `memcache.get("ctr_val:" + name) or BASE_VALUE` from line 35 of
the source: a missing slot gives `None` and a stored raw value of `0` is
falsy, so both are replaced by `BASE_VALUE`. -/
def orBase (v : Option Nat) : Nat :=
  match v with
  | none => BASE_VALUE
  | some n => if n = 0 then BASE_VALUE else n

/-- `get_count(name)`: datastore value (record absent contributes nothing)
plus the memcache offset `int(memcache.get(key) or BASE_VALUE) - BASE_VALUE`. -/
def get_count (s : St) (name : String) : Int :=
  let fmc : Int := (orBase (s.mc name) : Int) - (BASE_VALUE : Int)
  match s.ds name with
  | some v => v + fmc
  | none => fmc

/-- `get_counts(names)`: batched read.  Per name the source computes
`db_count = (db_counts[i] and db_counts[i].value) or 0` (so a present record
with value 0 yields 0, as does an absent record) and
`mc_count = int(mc_counts.get(name, BASE_VALUE)) - BASE_VALUE` (note: no
falsy coercion here, a stored raw 0 is used as-is). -/
def get_counts (s : St) (names : List String) : List Int :=
  names.map (fun name =>
    let db_count : Int :=
      match s.ds name with
      | some v => if v = 0 then 0 else v
      | none => 0
    let mc_count : Int := ((s.mc name).getD BASE_VALUE : Int) - (BASE_VALUE : Int)
    db_count + mc_count)

/-- Failure oracle for one `incr` call: `mcUpFail` means the initial
`memcache.incr`/`memcache.decr` RPC fails (returns `None`, leaving the slot
unchanged); `addFail` means the `memcache.add` of the lock key fails (returns
`False`); `taskFail` means `taskqueue.add` raises; `backFail` means the value
slot is evicted before the post-submission correction, so the bare
`memcache.decr`/`incr` (no `initial_value`) finds no key and returns `None`. -/
structure Oracle where
  mcUpFail : Bool
  addFail : Bool
  taskFail : Bool
  backFail : Bool

/-- Result of a normally-returning `incr`: the new state and the warning
logged by `logging.warn("counter %s reset failed (will double-count): %d", name, delta_to_persist)`,
if any. -/
structure IncrOut where
  st : St
  warned : Option (String × Int)

/-- The raw slot value returned by the initial memcache update of `incr`
(lines 77-80): `memcache.incr(key, delta, initial_value=BASE_VALUE)` for
`delta >= 0` (wraps modulo 2^64) and `memcache.decr(key, -delta,
initial_value=BASE_VALUE)` for `delta < 0` (clamps at 0, no underflow). -/
def rawAfter (s : St) (name : String) (delta : Int) : Nat :=
  if delta ≥ 0 then ((s.mc name).getD BASE_VALUE + delta.toNat) % UINT64_MOD
  else (s.mc name).getD BASE_VALUE - (-delta).toNat

/-- Bare `memcache.decr(key, d)` with no `initial_value` (line 106): fails
(returns `None`) when the key is absent, otherwise clamps at 0. -/
def mcDecrNoInit (s : St) (name : String) (d : Nat) : Option St :=
  match s.mc name with
  | none => none
  | some cur => some (setMc s name (some (cur - d)))

/-- Bare `memcache.incr(key, d)` with no `initial_value` (line 109): fails
(returns `None`) when the key is absent, otherwise wraps modulo 2^64. -/
def mcIncrNoInit (s : St) (name : String) (d : Nat) : Option St :=
  match s.mc name with
  | none => none
  | some cur => some (setMc s name (some ((cur + d) % UINT64_MOD)))

/-- `incr(name, delta, update_interval)` from lines 62-113.  Updates the
memcache slot, then tries `memcache.add` on the lock key (wins only if the
flag is absent and the RPC succeeds).  On a win it runs `v = int(v)` — a
`TypeError` if the initial memcache update returned `None` — computes
`delta_to_persist = v - BASE_VALUE`, returns if zero, submits the
persistence task (a bare `except` swallows submission failure), and on
successful submission corrects the slot by the inverse sign, logging a
warning if the correction call returns `None`.  `update_interval` is the
lock TTL; expiry is an external event clearing `lck`, so the parameter is
unused by the transition itself. -/
def incr (o : Oracle) (s : St) (name : String) (delta : Int)
    (update_interval : Nat := 10) : Except String IncrOut :=
  let v : Option Nat := if o.mcUpFail then none else some (rawAfter s name delta)
  let s1 : St := if o.mcUpFail then s else setMc s name (some (rawAfter s name delta))
  if !o.addFail && !(s1.lck name) then
    let s2 := setLck s1 name true
    match v with
    | none => Except.error "TypeError: int() argument cannot be None"
    | some raw =>
      let delta_to_persist : Int := (raw : Int) - (BASE_VALUE : Int)
      if delta_to_persist = 0 then
        Except.ok ⟨s2, none⟩
      else if o.taskFail then
        Except.ok ⟨s2, none⟩
      else
        let s3 : St := { s2 with tasks := s2.tasks ++ [(name, delta_to_persist)] }
        let s4 : St := if o.backFail then setMc s3 name none else s3
        if delta_to_persist > 0 then
          match mcDecrNoInit s4 name delta_to_persist.toNat with
          | none => Except.ok ⟨s4, some (name, delta_to_persist)⟩
          | some s5 => Except.ok ⟨s5, none⟩
        else
          match mcIncrNoInit s4 name (-delta_to_persist).toNat with
          | none => Except.ok ⟨s4, some (name, delta_to_persist)⟩
          | some s5 => Except.ok ⟨s5, none⟩
  else
    Except.ok ⟨s1, none⟩

/-- `CounterPersistIncr.incr_counter(name, delta)` (lines 123-130): read the
`Counter` record by key name; if absent create it with `value = delta`,
otherwise add `delta`; `put` the entity. -/
def incr_counter (s : St) (name : String) (delta : Int) : St :=
  match s.ds name with
  | none => setDs s name (some delta)
  | some v => setDs s name (some (v + delta))

/-- `CounterPersistIncr.post`: the task entry point runs `incr_counter`
inside `db.run_in_transaction`; in this sequential model the transaction is
the atomic application of its body. -/
def persist_incr (s : St) (name : String) (delta : Int) : St :=
  incr_counter s name delta

/-- The honest oracle: every collaborator call succeeds. -/
def honest : Oracle := ⟨false, false, false, false⟩

/-- The empty starting state: no records, no slots, no flags, no tasks. -/
def st0 : St := ⟨fun _ => none, fun _ => none, fun _ => false, []⟩

/-- A state whose cache slot for `"a"` holds the raw value 0 (reachable: a
decrement of more than the accumulated offset clamps the unsigned slot at
0), with no durable record. -/
def zeroSlotSt : St := ⟨fun _ => none, fun n => if n = "a" then some 0 else none, fun _ => false, []⟩

/-- A state whose cache slot for `"a"` has accumulated an offset of 5
(raw value `BASE_VALUE + 5`) and whose throttle flag is absent. -/
def offsetSt : St :=
  ⟨fun _ => none, fun n => if n = "a" then some (BASE_VALUE + 5) else none, fun _ => false, []⟩

/-- A state whose throttle flag for every name is present (so no flush can
be triggered) and whose cache is empty. -/
def lockedSt : St := ⟨fun _ => none, fun _ => none, fun _ => true, []⟩

/-- Two back-to-back honest increments on a fresh counter:
`incr("x", 5)` then `incr("x", 3)` starting from the empty state. -/
def scenarioTwoIncrs : Except String IncrOut :=
  (incr honest st0 "x" 5).bind (fun r => incr honest r.st "x" 3)

@[simp] theorem setMc_mc_same (s : St) (n : String) (v : Option Nat) :
    (setMc s n v).mc n = v := by simp [setMc]

@[simp] theorem setMc_ds (s : St) (n : String) (v : Option Nat) :
    (setMc s n v).ds = s.ds := rfl

@[simp] theorem setMc_lck (s : St) (n : String) (v : Option Nat) :
    (setMc s n v).lck = s.lck := rfl

@[simp] theorem setMc_tasks (s : St) (n : String) (v : Option Nat) :
    (setMc s n v).tasks = s.tasks := rfl

@[simp] theorem setLck_mc (s : St) (n : String) (b : Bool) :
    (setLck s n b).mc = s.mc := rfl

@[simp] theorem setLck_ds (s : St) (n : String) (b : Bool) :
    (setLck s n b).ds = s.ds := rfl

@[simp] theorem setLck_tasks (s : St) (n : String) (b : Bool) :
    (setLck s n b).tasks = s.tasks := rfl

@[simp] theorem setDs_ds_same (s : St) (n : String) (v : Option Int) :
    (setDs s n v).ds n = v := by simp [setDs]

@[simp] theorem setDs_mc (s : St) (n : String) (v : Option Int) :
    (setDs s n v).mc = s.mc := rfl

@[simp] theorem setDs_lck (s : St) (n : String) (v : Option Int) :
    (setDs s n v).lck = s.lck := rfl

@[simp] theorem setDs_tasks (s : St) (n : String) (v : Option Int) :
    (setDs s n v).tasks = s.tasks := rfl

theorem incr_counter_ds_self (s : St) (n : String) (d : Int) :
    (incr_counter s n d).ds n = some ((s.ds n).getD 0 + d) := by
  unfold incr_counter
  cases hd : s.ds n <;> simp [hd, setDs]

/-- C1 (amended): `get_count(name)` equals the durable record's value (0 if
absent) plus (the cache slot's raw value if present with a nonzero value,
else `BASE_VALUE`) minus `BASE_VALUE`, and is independent of the pending
persistence jobs (it includes no delta carried by a submitted but
uncommitted job). -/
theorem get_count_amended_formula (s : St) (name : String) :
    get_count s name = specGetCountAmended s name ∧
    ∀ ts : List (String × Int), get_count { s with tasks := ts } name = get_count s name := by
  refine ⟨?_, fun ts => rfl⟩
  simp only [get_count, specGetCountAmended, orBase]
  cases hd : s.ds name <;> cases hm : s.mc name <;> simp [hd, hm]

/-- C1 counterexample: in the state whose cache slot for `"a"` holds the raw
value 0 (and with no durable record), `get_count` returns 0, while the
claim's literal formula — the slot's raw value whenever the slot is present —
gives `0 - BASE_VALUE = -2^63`. -/
theorem get_count_raw_formula_cex :
    get_count zeroSlotSt "a" = 0 ∧
    specGetCountRaw zeroSlotSt "a" = -(2 ^ 63 : Int) ∧
    get_count zeroSlotSt "a" ≠ specGetCountRaw zeroSlotSt "a" :=
  ⟨rfl, rfl, by decide⟩

/-- C10: a cache slot holding the raw value 0 is treated by `get_count`
exactly like an absent slot — the Python expression
`memcache.get(key) or BASE_VALUE` replaces the falsy 0 by `BASE_VALUE`, so
the slot contributes offset 0 and `get_count` returns just the durable value
(0 if the record is absent). -/
theorem get_count_zero_slot_as_absent (s : St) (name : String)
    (h : s.mc name = some 0) :
    get_count s name = (s.ds name).getD 0 ∧
    get_count s name = get_count (setMc s name none) name := by
  simp only [get_count, orBase, h, setMc_mc_same, setMc_ds]
  cases hd : s.ds name <;> simp [hd]

/-- C10 witness: the zero-slot state instantiates the hypothesis and the
conclusion of `get_count_zero_slot_as_absent`. -/
theorem get_count_zero_slot_as_absent_witness :
    zeroSlotSt.mc "a" = some 0 ∧
    (get_count zeroSlotSt "a" = (zeroSlotSt.ds "a").getD 0 ∧
     get_count zeroSlotSt "a" = get_count (setMc zeroSlotSt "a" none) "a") :=
  ⟨rfl, get_count_zero_slot_as_absent zeroSlotSt "a" rfl⟩

/-- C5 (amended): provided no listed name's cache slot holds the raw value
0, `get_counts(names)` equals, in input order, the list of `get_count` on
each name; and a name with no prior activity (no durable record, no cache
slot) yields 0. -/
theorem get_counts_matches_get_count (s : St) (names : List String)
    (h : ∀ n ∈ names, s.mc n ≠ some 0) :
    get_counts s names = names.map (get_count s) ∧
    ∀ n ∈ names, s.ds n = none → s.mc n = none → get_count s n = 0 := by
  constructor
  · unfold get_counts
    refine List.map_congr_left ?_
    intro n hn
    have hz := h n hn
    simp only [get_count, orBase]
    cases hd : s.ds n <;> cases hm : s.mc n <;> simp [hd, hm]
    · rename_i v
      rw [hm] at hz
      have hv : v ≠ 0 := by simpa using hz
      simp [hv]
    · rename_i c
      by_cases hc : c = 0 <;> simp [hc]
    · rename_i c v
      rw [hm] at hz
      have hv : v ≠ 0 := by simpa using hz
      by_cases hc : c = 0 <;> simp [hc, hv]
  · intro n hn h1 h2
    simp [get_count, orBase, h1, h2]

/-- C5 witness: for the fresh state and the single-name list `["a"]` the
no-zero-slot hypothesis holds, the batch read agrees with the single read,
and the never-touched name `"a"` yields 0. -/
theorem get_counts_matches_get_count_witness :
    get_counts st0 ["a"] = (["a"] : List String).map (get_count st0) ∧
    get_count st0 "a" = 0 :=
  ⟨(get_counts_matches_get_count st0 ["a"] (by intro n hn; simp [st0])).1,
   (get_counts_matches_get_count st0 ["a"] (by intro n hn; simp [st0])).2 "a" (by simp)
     rfl rfl⟩

/-- C5 counterexample: with the cache slot for `"a"` holding the raw value
0, `get_counts` uses the raw 0 (no falsy coercion on the batched path) and
returns `-2^63`, while `get_count` coerces the falsy 0 to `BASE_VALUE` and
returns 0, so the batch read disagrees with the single read. -/
theorem get_counts_zero_slot_cex :
    get_counts zeroSlotSt ["a"] = [-(2 ^ 63 : Int)] ∧
    (["a"] : List String).map (get_count zeroSlotSt) = [0] ∧
    get_counts zeroSlotSt ["a"] ≠ (["a"] : List String).map (get_count zeroSlotSt) :=
  ⟨rfl, rfl, by decide⟩

/-- C4: the persistence job body (`CounterPersistIncr.post` running
`incr_counter` inside `db.run_in_transaction`) reads the durable record for
`name`, creates it with `value = delta` when absent and otherwise sets
`value = value + delta`; it touches no other record and no other storage
tier (the transaction is the atomic application of this body). -/
theorem incr_counter_transactional_apply (s : St) (name : String) (delta : Int) :
    (s.ds name = none → (persist_incr s name delta).ds name = some delta) ∧
    (∀ v, s.ds name = some v → (persist_incr s name delta).ds name = some (v + delta)) ∧
    (∀ m, m ≠ name → (persist_incr s name delta).ds m = s.ds m) ∧
    (persist_incr s name delta).mc = s.mc ∧
    (persist_incr s name delta).lck = s.lck ∧
    (persist_incr s name delta).tasks = s.tasks := by
  unfold persist_incr incr_counter
  cases hd : s.ds name <;>
    refine ⟨?_, ?_, ?_, rfl, rfl, rfl⟩ <;>
    simp [hd, setDs] <;>
    intro m hm <;> simp [hm]

/-- C4 witness: on the fresh state the job for `("a", 3)` creates the record
with value 3 and leaves the record for `"b"` absent. -/
theorem incr_counter_transactional_apply_witness :
    st0.ds "a" = none ∧
    (persist_incr st0 "a" 3).ds "a" = some 3 ∧
    (persist_incr st0 "a" 3).ds "b" = st0.ds "b" :=
  ⟨rfl, (incr_counter_transactional_apply st0 "a" 3).1 rfl,
   (incr_counter_transactional_apply st0 "a" 3).2.2.1 "b" (by decide)⟩

/-- C9: executing the `applyDelta` job body twice for the same `(name, D)`
leaves the durable value at its original value plus `2 * D`, and whenever
`D ≠ 0` the second execution changes the record again — the job is not
idempotent and performs no deduplication. -/
theorem incr_counter_twice_doubles (s : St) (name : String) (D : Int) :
    (incr_counter (incr_counter s name D) name D).ds name =
      some ((s.ds name).getD 0 + 2 * D) ∧
    (D ≠ 0 →
      (incr_counter (incr_counter s name D) name D).ds name ≠
        (incr_counter s name D).ds name) := by
  have h1 := incr_counter_ds_self s name D
  have h2 := incr_counter_ds_self (incr_counter s name D) name D
  rw [h1] at h2
  simp only [Option.getD_some] at h2
  constructor
  · rw [h2]; ring_nf
  · intro hD
    rw [h2, h1]
    intro h
    have := Option.some.inj h
    omega

/-- C9 witness: applying the job `("a", 3)` twice from the fresh state gives
durable value `0 + 2 * 3` and differs from applying it once. -/
theorem incr_counter_twice_doubles_witness :
    (incr_counter (incr_counter st0 "a" 3) "a" 3).ds "a" = some (2 * 3) ∧
    (incr_counter (incr_counter st0 "a" 3) "a" 3).ds "a" ≠
      (incr_counter st0 "a" 3).ds "a" :=
  ⟨by rw [(incr_counter_twice_doubles st0 "a" 3).1]; rfl,
   (incr_counter_twice_doubles st0 "a" 3).2 (by decide)⟩

/-- C2: when `incr` wins the throttle flag, the persistence task is
submitted successfully and `delta_to_persist` is nonzero, `incr` applies the
inverse-sign correction to the cache slot (decrement by `delta_to_persist`
when positive, increment by its magnitude when negative, with no warning);
and if the slot is missing at correction time the call still returns
normally, logs exactly one warning carrying the name and the delta, and
leaves the slot uncorrected (no retry). -/
theorem incr_flush_correction (o : Oracle) (s : St) (name : String) (delta : Int)
    (h1 : o.mcUpFail = false) (h2 : o.addFail = false) (h3 : s.lck name = false)
    (h4 : o.taskFail = false)
    (h5 : (rawAfter s name delta : Int) - (BASE_VALUE : Int) ≠ 0) :
    ∃ r : IncrOut, incr o s name delta = Except.ok r ∧
      r.st.tasks = s.tasks ++ [(name, (rawAfter s name delta : Int) - (BASE_VALUE : Int))] ∧
      (o.backFail = false →
        r.warned = none ∧
        r.st.mc name =
          some (if (rawAfter s name delta : Int) - (BASE_VALUE : Int) > 0 then
                  rawAfter s name delta - ((rawAfter s name delta : Int) - (BASE_VALUE : Int)).toNat
                else
                  (rawAfter s name delta +
                    ((BASE_VALUE : Int) - (rawAfter s name delta : Int)).toNat) % UINT64_MOD)) ∧
      (o.backFail = true →
        r.warned = some (name, (rawAfter s name delta : Int) - (BASE_VALUE : Int)) ∧
        r.st.mc name = none) := by
  cases hb : o.backFail <;>
    by_cases hp : (rawAfter s name delta : Int) - (BASE_VALUE : Int) > 0 <;>
    simp only [incr, h1, h2, h3, h4, hb, Bool.false_eq_true, if_false, setMc_lck,
      Bool.not_false, Bool.and_self, if_true, if_neg h5, if_pos hp, ite_true, ite_false,
      Bool.true_and, mcDecrNoInit, mcIncrNoInit, setMc_mc_same] <;>
    simp [mcDecrNoInit, mcIncrNoInit, setMc, setLck, hp, h5, neg_sub]

/-- C2 witness: the flush of `incr("x", 5)` from the fresh state with an
evicted slot at correction time (`backFail = true`) instantiates every
hypothesis and the conclusion of `incr_flush_correction`. -/
theorem incr_flush_correction_witness :
    (Oracle.mk false false false true).mcUpFail = false ∧
    (Oracle.mk false false false true).addFail = false ∧
    st0.lck "x" = false ∧
    (Oracle.mk false false false true).taskFail = false ∧
    (rawAfter st0 "x" 5 : Int) - (BASE_VALUE : Int) ≠ 0 ∧
    ∃ r : IncrOut, incr (Oracle.mk false false false true) st0 "x" 5 = Except.ok r ∧
      r.st.tasks = st0.tasks ++ [("x", (rawAfter st0 "x" 5 : Int) - (BASE_VALUE : Int))] ∧
      ((Oracle.mk false false false true).backFail = false →
        r.warned = none ∧
        r.st.mc "x" =
          some (if (rawAfter st0 "x" 5 : Int) - (BASE_VALUE : Int) > 0 then
                  rawAfter st0 "x" 5 - ((rawAfter st0 "x" 5 : Int) - (BASE_VALUE : Int)).toNat
                else
                  (rawAfter st0 "x" 5 +
                    ((BASE_VALUE : Int) - (rawAfter st0 "x" 5 : Int)).toNat) % UINT64_MOD)) ∧
      ((Oracle.mk false false false true).backFail = true →
        r.warned = some ("x", (rawAfter st0 "x" 5 : Int) - (BASE_VALUE : Int)) ∧
        r.st.mc "x" = none) :=
  ⟨rfl, rfl, rfl, rfl, by decide,
   incr_flush_correction (Oracle.mk false false false true) st0 "x" 5 rfl rfl rfl rfl
     (by decide)⟩

/-- C3: when `incr` wins the throttle flag with a nonzero
`delta_to_persist` but the task-queue submission fails, `incr` returns
normally with no warning, enqueues nothing, performs no durable write, and
leaves the cache slot at its post-increment value so the accumulated delta
remains for a later flush attempt. -/
theorem incr_submit_failure_keeps_slot (o : Oracle) (s : St) (name : String) (delta : Int)
    (h1 : o.mcUpFail = false) (h2 : o.addFail = false) (h3 : s.lck name = false)
    (h4 : o.taskFail = true)
    (h5 : (rawAfter s name delta : Int) - (BASE_VALUE : Int) ≠ 0) :
    ∃ r : IncrOut, incr o s name delta = Except.ok r ∧
      r.st.tasks = s.tasks ∧
      r.st.ds = s.ds ∧
      r.st.mc name = some (rawAfter s name delta) ∧
      r.warned = none := by
  simp only [incr, h1, h2, h3, h4, Bool.false_eq_true, if_false, setMc_lck,
    Bool.not_false, Bool.and_self, if_true, if_neg h5, ite_true, ite_false, Bool.true_and]
  exact ⟨_, rfl, rfl, rfl, by simp [setLck, setMc], rfl⟩

/-- C3 witness: `incr("x", 5)` from the fresh state with a failing
task-queue submission instantiates every hypothesis and the conclusion of
`incr_submit_failure_keeps_slot`. -/
theorem incr_submit_failure_keeps_slot_witness :
    (Oracle.mk false false true false).mcUpFail = false ∧
    (Oracle.mk false false true false).addFail = false ∧
    st0.lck "x" = false ∧
    (Oracle.mk false false true false).taskFail = true ∧
    (rawAfter st0 "x" 5 : Int) - (BASE_VALUE : Int) ≠ 0 ∧
    ∃ r : IncrOut, incr (Oracle.mk false false true false) st0 "x" 5 = Except.ok r ∧
      r.st.tasks = st0.tasks ∧
      r.st.ds = st0.ds ∧
      r.st.mc "x" = some (rawAfter st0 "x" 5) ∧
      r.warned = none :=
  ⟨rfl, rfl, rfl, rfl, by decide,
   incr_submit_failure_keeps_slot (Oracle.mk false false true false) st0 "x" 5 rfl rfl rfl
     rfl (by decide)⟩

/-- C6 failing execution: if the initial memcache value-update call fails
(returns `None`) while the `memcache.add` of the throttle flag succeeds,
`incr` reaches `v = int(v)` with `v = None` and raises a `TypeError` to the
calling request instead of returning normally. -/
theorem incr_mixed_cache_failure_raises :
    incr (Oracle.mk true false false false) st0 "x" 1 =
      Except.error "TypeError: int() argument cannot be None" := rfl

/-- C7 counterexample: from the fresh state, `incr("x", 5)` wins the
throttle flag (no prior flag exists) and flushes its delta into a submitted
job, so after the second call `incr("x", 3)` the observable count is 3, not
8 — the flushed 5 sits in the still-unexecuted job, which `get_count`
excludes. -/
theorem two_incrs_fresh_cex :
    scenarioTwoIncrs.map (fun r => get_count r.st "x") = Except.ok 3 ∧
    (3 : Int) ≠ 8 :=
  ⟨rfl, by decide⟩

/-- C7 (amended): from a state with no throttle flag, no cache slot and no
durable record for `"x"`, honest `incr("x", 5)` then `incr("x", 3)` with no
deferred job yet executed leave `get_count("x") = 3`, no durable record,
and the first call's delta 5 in a single submitted job `("x", 5)`. -/
theorem two_incrs_fresh_amended :
    scenarioTwoIncrs.map (fun r => (get_count r.st "x", r.st.ds "x", r.st.tasks)) =
      Except.ok (3, none, [("x", 5)]) := rfl

/-- C8 counterexample: in a state with no throttle flag and an accumulated
cache offset of 5 for `"a"`, `get_count` reads 5 before `incr("a", 0)` and 0
after it — the zero increment wins the flag and flushes the accumulated 5
into a pending job, which `get_count` excludes. -/
theorem incr_zero_flush_cex :
    get_count offsetSt "a" = 5 ∧
    (incr honest offsetSt "a" 0).map (fun r => get_count r.st "a") = Except.ok 0 ∧
    (0 : Int) ≠ 5 :=
  ⟨rfl, rfl, by decide⟩

/-- C8 (amended): `incr(name, 0)` leaves the value observable through
`get_count` unchanged provided it cannot win the throttle flag (the flag
for `name` is already present), for any failure oracle and any slot value
within the unsigned 64-bit range. -/
theorem incr_zero_noop_amended (o : Oracle) (s : St) (name : String)
    (hl : s.lck name = true)
    (hb : ∀ v, s.mc name = some v → v < UINT64_MOD) :
    (incr o s name 0).map (fun r => get_count r.st name) = Except.ok (get_count s name) := by
  cases hmf : o.mcUpFail
  case true =>
    simp [incr, hmf, hl, Except.map]
  case false =>
    have hcond : (!o.addFail && !((setMc s name (some (rawAfter s name 0))).lck name)) = false := by
      simp [setMc_lck, hl]
    simp only [incr, hmf, Bool.false_eq_true, if_false, hcond, Except.map]
    congr 1
    have hraw : rawAfter s name 0 = (s.mc name).getD BASE_VALUE := by
      unfold rawAfter
      cases hmc : s.mc name
      · simp
        decide
      · rename_i v
        simp [Nat.mod_eq_of_lt (hb v hmc)]
    simp only [get_count, setMc_mc_same, setMc_ds, hraw]
    cases hmc : s.mc name <;> simp [hmc, orBase]

/-- C8 witness: the locked state (flag present, empty cache) instantiates
the hypotheses and the conclusion of `incr_zero_noop_amended` for the honest
oracle. -/
theorem incr_zero_noop_amended_witness :
    lockedSt.lck "a" = true ∧
    (incr honest lockedSt "a" 0).map (fun r => get_count r.st "a") =
      Except.ok (get_count lockedSt "a") :=
  ⟨rfl, incr_zero_noop_amended honest lockedSt "a" rfl (fun v h => nomatch h)⟩
